import Mathlib

/-!
Verification of the cluster test driver in hadoop_mr_tests/util.py.

The development shallowly embeds the driver's operations:
* unit-conversion helpers over exact rationals;
* the staging-directory / generation functions as transformers of an
  explicit filesystem state (files are name/line-list pairs, a line is
  stored without its trailing newline and contributes length + 1 bytes);
* the lifecycle functions as the ordered list of external processes they
  spawn, tagged by whether they run through the su privilege wrapper;
* application-id extraction as a leftmost greedy search for the pattern
  application_<digits>_<digits> over the captured command output.
-/

set_option maxRecDepth 8192

namespace Hadoop

/-- The directory input files are staged in before they are added to HDFS. -/
def INPUT_DIRECTORY : String := "/home/hadoop/input"

/-- Root of the Hadoop installation. -/
def HADOOP_HOME : String := "/usr/local/hadoop"

/-- Path of the hadoop binary. -/
def HADOOP : String := HADOOP_HOME ++ "/bin/hadoop"

/-- Path of the hdfs binary. -/
def HDFS : String := HADOOP_HOME ++ "/bin/hdfs"

/-- Path of the yarn binary. -/
def YARN : String := HADOOP_HOME ++ "/bin/yarn"

/-- MiB_to_bytes from the source: multiply by 1024 * 1024.  Numbers are
modelled as exact rationals. -/
def MiB_to_bytes (MiB : ℚ) : ℚ := MiB * 1024 * 1024

/-- bytes_to_MiB from the source: true (non-truncating) division by
1024 * 1024, the semantics of the single-slash division in the source. -/
def bytes_to_MiB (bytes : ℚ) : ℚ := bytes / (1024 * 1024)

/-- The filesystem state visible to the driver: the process-wide current
working directory, the staging directory (none when absent, otherwise the
list of its files in creation order as name/lines pairs), and the record of
staging-directory snapshots uploaded to HDFS by dfs -put. -/
structure FS where
  cwd : String
  inputDir : Option (List (String × List (List Char)))
  hdfsUploads : List (List (String × List (List Char)))
  deriving DecidableEq

/-- Result of a driver operation: a normal return carrying the new state, or
process termination via sys.exit after printing the given console lines. -/
inductive Outcome (α : Type) where
  | ok : α → Outcome α
  | exited : List String → Outcome α
  deriving DecidableEq

/-- os.path.exists on the staging directory. -/
def path_exists (fs : FS) : Bool := fs.inputDir.isSome

/-- shutil.rmtree on the staging directory. -/
def rmtree (fs : FS) : FS := { fs with inputDir := none }

/-- os.mkdir of the staging directory: it comes into existence empty. -/
def mkdir (fs : FS) : FS := { fs with inputDir := some [] }

/-- The console lines printed when recreating the staging directory fails. -/
def ioFailMsgs : List String :=
  ["Unable to create directory at " ++ INPUT_DIRECTORY, "Script failed.."]

/-- make_input_directory: delete the staging directory if it exists, then
create it; an OSError from either step (modelled by the ioError flag) prints
two messages and terminates the process via sys.exit. -/
def make_input_directory (ioError : Bool) (fs : FS) : Outcome FS :=
  if ioError then Outcome.exited ioFailMsgs
  else Outcome.ok (mkdir (if path_exists fs then rmtree fs else fs))

/-- Writing a fresh file with the given lines into the staging directory
(open(name, "w") after chdir into INPUT_DIRECTORY, then writing each line). -/
def write_file (fs : FS) (name : String) (lines : List (List Char)) : FS :=
  { fs with inputDir := some (fs.inputDir.getD [] ++ [(name, lines)]) }

/-- hdfs dfs -put INPUT_DIRECTORY: upload a snapshot of the staging
directory to HDFS. -/
def hdfs_put (fs : FS) : FS :=
  { fs with hdfsUploads := fs.hdfsUploads ++ [fs.inputDir.getD []] }

/-- hdfs_generate_word_file: recreate the staging directory, chdir into it,
write input_file holding num_words lines of num_characters_per_word
repetitions of the filler character r, then upload the directory. -/
def hdfs_generate_word_file (ioError : Bool)
    (num_characters_per_word num_words : Nat) (fs : FS) : Outcome FS :=
  match make_input_directory ioError fs with
  | Outcome.exited ms => Outcome.exited ms
  | Outcome.ok fs1 =>
    let fs2 := { fs1 with cwd := INPUT_DIRECTORY }
    let words := List.replicate num_words (List.replicate num_characters_per_word 'r')
    Outcome.ok (hdfs_put (write_file fs2 "input_file" words))

/-- hdfs_generate_word_files: recreate the staging directory, chdir into it,
write num_files files input_file_i, each holding
MiB_to_bytes(file_size_in_MiB) // WORD_SIZE lines (WORD_SIZE = 1000,
integer floor division) of 999 repetitions of the filler character w, then
upload the directory. -/
def hdfs_generate_word_files (ioError : Bool)
    (num_files file_size_in_MiB : Nat) (fs : FS) : Outcome FS :=
  match make_input_directory ioError fs with
  | Outcome.exited ms => Outcome.exited ms
  | Outcome.ok fs1 =>
    let fs2 := { fs1 with cwd := INPUT_DIRECTORY }
    let WORD_SIZE : Nat := 1000
    let numWords := file_size_in_MiB * 1024 * 1024 / WORD_SIZE
    let words := List.replicate numWords (List.replicate (WORD_SIZE - 1) 'w')
    Outcome.ok (hdfs_put ((List.range num_files).foldl
      (fun acc i => write_file acc ("input_file_" ++ toString i) words) fs2))

/-- Size in bytes of a file stored as a list of lines: each line contributes
its character count plus one byte for the newline the source appends. -/
def fileSizeBytes (lines : List (List Char)) : Nat :=
  (lines.map (fun l => l.length + 1)).sum

/-- An external process spawned by the driver: either through the su hadoop
privilege wrapper (execute_command and the log-retrieval Popen), or directly
as the invoking user (the bare subprocess call in tear-down). -/
inductive Proc where
  | su : String → Proc
  | direct : List String → Proc
  deriving DecidableEq

/-- execute_command: run the command line as the hadoop user via su. -/
def execute_command (command : String) : Proc := Proc.su command

/-- Whether a spawned process goes through the su privilege wrapper. -/
def isSu : Proc → Bool
  | Proc.su _ => true
  | Proc.direct _ => false

/-- The processes spawned by hadoop_start_up, in program order. -/
def hadoop_start_up_cmds : List Proc :=
  [execute_command (HDFS ++ " namenode -format -y"),
   execute_command (HADOOP_HOME ++ "/sbin/start-dfs.sh"),
   execute_command (HADOOP_HOME ++ "/sbin/start-yarn.sh"),
   execute_command "/usr/local/java/bin/jps",
   execute_command (HDFS ++ " dfs -mkdir /user"),
   execute_command (HDFS ++ " dfs -mkdir /user/hadoop")]

/-- The processes spawned by hadoop_tear_down, in program order.  The final
temporary-file cleanup is a bare subprocess call, not an execute_command. -/
def hadoop_tear_down_cmds : List Proc :=
  [execute_command (HADOOP_HOME ++ "/sbin/stop-dfs.sh"),
   execute_command (HADOOP_HOME ++ "/sbin/stop-yarn.sh"),
   execute_command "/usr/local/java/bin/jps",
   Proc.direct ["rm", "-rf", "/tmp/hadoop-hadoop", "/tmp/hadoop-yarn-hadoop"]]

/-- The process spawned by either generation mode for the upload step. -/
def hdfs_generate_cmds : List Proc :=
  [execute_command (HDFS ++ " dfs -put " ++ INPUT_DIRECTORY)]

/-- The processes spawned by hadoop_print_configuration_property_values. -/
def hadoop_print_configuration_property_values_cmds
    (properties : List String) : List Proc :=
  properties.map (fun property =>
    execute_command (HADOOP ++ " org.apache.hadoop.hdfs.tools.GetConf -confKey " ++ property))

/-- The process spawned by yarn_get_application_id. -/
def yarn_get_application_id_cmds : List Proc :=
  [execute_command (YARN ++ " application -list -appStates FINISHED")]

/-- The process spawned by yarn_write_logs_to_file: a subprocess.Popen of
su hadoop -c with the formatted yarn logs command line. -/
def yarn_write_logs_to_file_cmds (application_id : String) : List Proc :=
  [Proc.su ("/usr/local/hadoop/bin/yarn logs -applicationId " ++ application_id
      ++ " -appOwner hadoop")]

/-- a occurs strictly before b in the trace t. -/
def precedesIn (t : List Proc) (a b : Proc) : Prop :=
  ∃ i : Fin t.length, ∃ j : Fin t.length, i.val < j.val ∧ t.get i = a ∧ t.get j = b

instance (t : List Proc) (a b : Proc) : Decidable (precedesIn t a b) := by
  unfold precedesIn; infer_instance

/-- The literal head of the application-id regular expression. -/
def appIdHead : List Char :=
  ['a', 'p', 'p', 'l', 'i', 'c', 'a', 't', 'i', 'o', 'n', '_']

/-- One attempt of the Python regex engine to match
application_[0-9]+_[0-9]+ at the start of cs: the literal head, a maximal
nonempty digit run, an underscore, and a second maximal nonempty digit run
(greedy, as the digit class never backtracks past the underscore). -/
def tryMatchAt (cs : List Char) : Option (List Char) :=
  if cs.take 12 = appIdHead then
    if (cs.drop 12).takeWhile (fun c => c.isDigit) = [] then none
    else if ((cs.drop 12).dropWhile (fun c => c.isDigit)).take 1 = ['_'] then
      if (((cs.drop 12).dropWhile (fun c => c.isDigit)).drop 1).takeWhile
          (fun c => c.isDigit) = [] then none
      else some (appIdHead ++ (cs.drop 12).takeWhile (fun c => c.isDigit)
          ++ '_' :: (((cs.drop 12).dropWhile (fun c => c.isDigit)).drop 1).takeWhile
              (fun c => c.isDigit))
    else none
  else none

/-- re.search for the application-id pattern: try each start position from
the left and return the first successful match, none when every position fails. -/
def re_search : List Char → Option (List Char)
  | [] => none
  | c :: t =>
    match tryMatchAt (c :: t) with
    | some m => some m
    | none => re_search t

/-- yarn_get_application_id, applied to the captured output of the
application-list command: re.search for the pattern followed by .group();
the none result models the exception .group() raises on a failed search. -/
def yarn_get_application_id (yarn_app_list : List Char) : Option (List Char) :=
  re_search yarn_app_list

/-- A string is a full match of the pattern application_[0-9]+_[0-9]+. -/
def appIdMatch (m : List Char) : Prop :=
  ∃ d1 d2 : List Char, d1 ≠ [] ∧ d2 ≠ [] ∧
    (∀ c ∈ d1, c.isDigit = true) ∧ (∀ c ∈ d2, c.isDigit = true) ∧
    m = appIdHead ++ d1 ++ '_' :: d2

/-- m occurs in text starting at position i. -/
def occursAt (text m : List Char) (i : Nat) : Prop :=
  ∃ u v : List Char, u.length = i ∧ text = u ++ m ++ v

/-! ### Facts about the application-id search -/

theorem takeWhile_digit_run (d tail : List Char) (h : ∀ x ∈ d, x.isDigit = true) :
    (d ++ '_' :: tail).takeWhile (fun c => c.isDigit) = d := by
  have hu : ('_' : Char).isDigit = false := by decide
  rw [List.takeWhile_append_of_pos h]
  simp [List.takeWhile_cons, hu]

theorem dropWhile_digit_run (d tail : List Char) (h : ∀ x ∈ d, x.isDigit = true) :
    (d ++ '_' :: tail).dropWhile (fun c => c.isDigit) = '_' :: tail := by
  have hu : ('_' : Char).isDigit = false := by decide
  rw [List.dropWhile_append_of_pos h]
  simp [List.dropWhile_cons, hu]

theorem appIdMatch_ne_nil {m : List Char} (h : appIdMatch m) : m ≠ [] := by
  obtain ⟨d1, d2, h1, h2, hall1, hall2, rfl⟩ := h
  simp [appIdHead]

theorem occursAt_drop {text m : List Char} {i : Nat} (h : occursAt text m i) :
    ∃ v, text.drop i = m ++ v := by
  obtain ⟨u, v, hlen, rfl⟩ := h
  refine ⟨v, ?_⟩
  rw [← hlen, List.append_assoc]
  exact List.drop_left u (m ++ v)

theorem occursAt_of_drop {text m : List Char} {i : Nat} (hm : m ≠ [])
    (h : ∃ v, text.drop i = m ++ v) : occursAt text m i := by
  obtain ⟨v, hv⟩ := h
  have hi : i ≤ text.length := by
    by_contra hgt
    have hnil : text.drop i = [] := List.drop_eq_nil_of_le (by omega)
    rw [hnil] at hv
    exact hm (List.append_eq_nil.mp hv.symm).1
  refine ⟨text.take i, v, ?_, ?_⟩
  · rw [List.length_take]; omega
  · rw [List.append_assoc, ← hv, List.take_append_drop]

theorem tryMatchAt_some {cs m : List Char} (h : tryMatchAt cs = some m) :
    appIdMatch m ∧ (∃ v, cs = m ++ v) ∧
      ∀ m', appIdMatch m' → (∃ v', cs = m' ++ v') → m'.length ≤ m.length := by
  by_cases h12 : cs.take 12 = appIdHead
  · unfold tryMatchAt at h
    rw [if_pos h12] at h
    by_cases hd1 : (cs.drop 12).takeWhile (fun c => c.isDigit) = []
    · rw [if_pos hd1] at h; exact Option.noConfusion h
    · rw [if_neg hd1] at h
      by_cases htk : ((cs.drop 12).dropWhile (fun c => c.isDigit)).take 1 = ['_']
      · rw [if_pos htk] at h
        by_cases hd2 : (((cs.drop 12).dropWhile (fun c => c.isDigit)).drop 1).takeWhile
            (fun c => c.isDigit) = []
        · rw [if_pos hd2] at h; exact Option.noConfusion h
        · rw [if_neg hd2] at h
          have hm := (Option.some.inj h).symm
          have hdw : (cs.drop 12).dropWhile (fun c => c.isDigit)
              = '_' :: ((cs.drop 12).dropWhile (fun c => c.isDigit)).drop 1 := by
            conv_lhs => rw [← List.take_append_drop 1
              ((cs.drop 12).dropWhile (fun c => c.isDigit))]
            rw [htk]
            rfl
          have hrest : cs.drop 12 = (cs.drop 12).takeWhile (fun c => c.isDigit)
              ++ '_' :: ((cs.drop 12).dropWhile (fun c => c.isDigit)).drop 1 := by
            conv_lhs => rw [← List.takeWhile_append_dropWhile
              (fun c => c.isDigit) (cs.drop 12)]
            rw [← hdw]
          have hcs : cs = appIdHead ++ cs.drop 12 := by
            conv_lhs => rw [← List.take_append_drop 12 cs]
            rw [h12]
          have hall1 : ∀ x ∈ (cs.drop 12).takeWhile (fun c => c.isDigit),
              x.isDigit = true := fun x hx => List.mem_takeWhile_imp hx
          have hall2 : ∀ x ∈ (((cs.drop 12).dropWhile (fun c => c.isDigit)).drop 1).takeWhile
              (fun c => c.isDigit), x.isDigit = true :=
            fun x hx => List.mem_takeWhile_imp hx
          have hr2 : ((cs.drop 12).dropWhile (fun c => c.isDigit)).drop 1
              = (((cs.drop 12).dropWhile (fun c => c.isDigit)).drop 1).takeWhile
                  (fun c => c.isDigit)
                ++ (((cs.drop 12).dropWhile (fun c => c.isDigit)).drop 1).dropWhile
                  (fun c => c.isDigit) :=
            (List.takeWhile_append_dropWhile _ _).symm
          refine ⟨⟨(cs.drop 12).takeWhile (fun c => c.isDigit),
              (((cs.drop 12).dropWhile (fun c => c.isDigit)).drop 1).takeWhile
                (fun c => c.isDigit), hd1, hd2, hall1, hall2, hm⟩,
            ⟨(((cs.drop 12).dropWhile (fun c => c.isDigit)).drop 1).dropWhile
                (fun c => c.isDigit), ?_⟩, ?_⟩
          · rw [hm]
            conv_lhs => rw [hcs, hrest, hr2]
            simp [List.append_assoc]
          · rintro m' ⟨d1', d2', h1', h2', hall1', hall2', rfl⟩ ⟨v', hv'⟩
            have h' := hcs.symm.trans hv'
            simp only [List.append_assoc, List.cons_append] at h'
            have hv2 : cs.drop 12 = d1' ++ '_' :: (d2' ++ v') :=
              List.append_cancel_left h'
            have hd1eq : (cs.drop 12).takeWhile (fun c => c.isDigit) = d1' := by
              rw [hv2]; exact takeWhile_digit_run d1' _ hall1'
            have hdweq : (cs.drop 12).dropWhile (fun c => c.isDigit)
                = '_' :: (d2' ++ v') := by
              rw [hv2]; exact dropWhile_digit_run d1' _ hall1'
            have hr2eq : ((cs.drop 12).dropWhile (fun c => c.isDigit)).drop 1
                = d2' ++ v' := by
              rw [hdweq]
              rfl
            have hd2eq : (((cs.drop 12).dropWhile (fun c => c.isDigit)).drop 1).takeWhile
                (fun c => c.isDigit) = d2' ++ v'.takeWhile (fun c => c.isDigit) := by
              rw [hr2eq]; exact List.takeWhile_append_of_pos hall2'
            rw [hm, hd1eq, hd2eq]
            simp only [List.length_append, List.length_cons]
            omega
      · rw [if_neg htk] at h; exact Option.noConfusion h
  · unfold tryMatchAt at h
    rw [if_neg h12] at h
    exact Option.noConfusion h

theorem tryMatchAt_of_match {cs m v : List Char} (hm : appIdMatch m)
    (he : cs = m ++ v) : ∃ m0, tryMatchAt cs = some m0 := by
  obtain ⟨d1, d2, h1, h2, hall1, hall2, rfl⟩ := hm
  have hcs : cs = appIdHead ++ (d1 ++ '_' :: (d2 ++ v)) := by
    rw [he]; simp [List.append_assoc]
  have hlen : appIdHead.length = 12 := rfl
  have h12 : cs.take 12 = appIdHead := by
    rw [hcs, ← hlen, List.take_left]
  have hdrop : cs.drop 12 = d1 ++ '_' :: (d2 ++ v) := by
    rw [hcs, ← hlen, List.drop_left]
  have hd1eq : (cs.drop 12).takeWhile (fun c => c.isDigit) = d1 := by
    rw [hdrop]; exact takeWhile_digit_run d1 _ hall1
  have hdweq : (cs.drop 12).dropWhile (fun c => c.isDigit) = '_' :: (d2 ++ v) := by
    rw [hdrop]; exact dropWhile_digit_run d1 _ hall1
  have htk : ((cs.drop 12).dropWhile (fun c => c.isDigit)).take 1 = ['_'] := by
    rw [hdweq]
    rfl
  have hr2 : ((cs.drop 12).dropWhile (fun c => c.isDigit)).drop 1 = d2 ++ v := by
    rw [hdweq]
    rfl
  have hd2ne : (((cs.drop 12).dropWhile (fun c => c.isDigit)).drop 1).takeWhile
      (fun c => c.isDigit) ≠ [] := by
    rw [hr2]
    cases d2 with
    | nil => exact absurd rfl h2
    | cons y ys =>
      have hy : y.isDigit = true := hall2 y (List.mem_cons_self y ys)
      simp [List.takeWhile_cons, hy]
  refine ⟨appIdHead ++ (cs.drop 12).takeWhile (fun c => c.isDigit)
      ++ '_' :: (((cs.drop 12).dropWhile (fun c => c.isDigit)).drop 1).takeWhile
          (fun c => c.isDigit), ?_⟩
  unfold tryMatchAt
  rw [if_pos h12, if_neg (fun hc => h1 (hd1eq ▸ hc)), if_pos htk, if_neg hd2ne]

theorem re_search_some {cs m : List Char} (h : re_search cs = some m) :
    ∃ i, tryMatchAt (cs.drop i) = some m ∧
      ∀ j, j < i → tryMatchAt (cs.drop j) = none := by
  induction cs with
  | nil => exact Option.noConfusion h
  | cons c t ih =>
    rw [re_search] at h
    cases htm : tryMatchAt (c :: t) with
    | some m0 =>
      rw [htm] at h
      have hm : m0 = m := Option.some.inj h
      refine ⟨0, ?_, ?_⟩
      · rw [List.drop_zero, htm, hm]
      · intro j hj; omega
    | none =>
      rw [htm] at h
      obtain ⟨i, h1, h2⟩ := ih h
      refine ⟨i + 1, ?_, ?_⟩
      · rw [List.drop_succ_cons]; exact h1
      · intro j hj
        cases j with
        | zero => rw [List.drop_zero]; exact htm
        | succ k => rw [List.drop_succ_cons]; exact h2 k (by omega)

theorem re_search_none {cs : List Char} (h : re_search cs = none) :
    ∀ i, tryMatchAt (cs.drop i) = none := by
  induction cs with
  | nil => intro i; rw [List.drop_nil]; rfl
  | cons c t ih =>
    rw [re_search] at h
    cases htm : tryMatchAt (c :: t) with
    | some m0 =>
      rw [htm] at h
      exact Option.noConfusion h
    | none =>
      rw [htm] at h
      intro i
      cases i with
      | zero => rw [List.drop_zero]; exact htm
      | succ k => rw [List.drop_succ_cons]; exact ih h k

/-! ### Characterisation of the staging-directory operations -/

theorem make_input_directory_ok (fs : FS) :
    make_input_directory false fs = Outcome.ok ⟨fs.cwd, some [], fs.hdfsUploads⟩ := by
  obtain ⟨c, d, u⟩ := fs
  cases d <;> rfl

theorem foldl_write_range (L : List (List Char)) (n : Nat) (c : String)
    (l : List (String × List (List Char)))
    (u : List (List (String × List (List Char)))) :
    (List.range n).foldl
        (fun acc i => write_file acc ("input_file_" ++ toString i) L) ⟨c, some l, u⟩
      = ⟨c, some (l ++ (List.range n).map (fun i => ("input_file_" ++ toString i, L))), u⟩ := by
  induction n with
  | zero => simp
  | succ n ih =>
    rw [List.range_succ, List.foldl_append, ih]
    simp [write_file, List.append_assoc]

theorem hdfs_generate_word_file_eq (ncpw nw : Nat) (fs : FS) :
    hdfs_generate_word_file false ncpw nw fs
      = Outcome.ok ⟨INPUT_DIRECTORY,
          some [("input_file", List.replicate nw (List.replicate ncpw 'r'))],
          fs.hdfsUploads
            ++ [[("input_file", List.replicate nw (List.replicate ncpw 'r'))]]⟩ := by
  simp only [hdfs_generate_word_file, make_input_directory_ok]
  simp [write_file, hdfs_put]

theorem hdfs_generate_word_files_eq (nf s : Nat) (fs : FS) :
    hdfs_generate_word_files false nf s fs
      = Outcome.ok ⟨INPUT_DIRECTORY,
          some ((List.range nf).map (fun i =>
            ("input_file_" ++ toString i,
             List.replicate (s * 1024 * 1024 / 1000) (List.replicate 999 'w')))),
          fs.hdfsUploads ++ [(List.range nf).map (fun i =>
            ("input_file_" ++ toString i,
             List.replicate (s * 1024 * 1024 / 1000) (List.replicate 999 'w')))]⟩ := by
  simp only [hdfs_generate_word_files, make_input_directory_ok]
  rw [foldl_write_range]
  simp [hdfs_put]

theorem fileSizeBytes_replicate (n k : Nat) (ch : Char) :
    fileSizeBytes (List.replicate n (List.replicate k ch)) = n * (k + 1) := by
  induction n with
  | zero => simp [fileSizeBytes]
  | succ n ih =>
    simp only [fileSizeBytes, List.replicate_succ, List.map_cons, List.sum_cons,
      List.length_replicate] at ih ⊢
    rw [ih]
    ring

/-! ### Claim theorems about generation and the staging directory -/

/-- C2: for every file count f and size s in MiB, multi-file generation
produces exactly f files named input_file_0 .. input_file_(f-1), each with
floor(s*1024*1024/1000) lines of 999 w characters plus a newline, hence
byte size floor(s*1024*1024/1000)*1000. -/
theorem hdfs_generate_word_files_spec (f s : Nat) (fs : FS) :
    ∃ fs', hdfs_generate_word_files false f s fs = Outcome.ok fs' ∧
      ∃ files, fs'.inputDir = some files ∧
        files.length = f ∧
        files.map Prod.fst = (List.range f).map (fun i => "input_file_" ++ toString i) ∧
        ∀ e ∈ files, e.2.length = s * 1024 * 1024 / 1000 ∧
          (∀ l ∈ e.2, l = List.replicate 999 'w') ∧
          fileSizeBytes e.2 = s * 1024 * 1024 / 1000 * 1000 := by
  refine ⟨_, hdfs_generate_word_files_eq f s fs, _, rfl, ?_, ?_, ?_⟩
  · simp
  · simp [List.map_map, Function.comp]
  · intro e he
    simp only [List.mem_map, List.mem_range] at he
    obtain ⟨i, hi, rfl⟩ := he
    refine ⟨by simp, fun l hl => List.eq_of_mem_replicate hl, ?_⟩
    rw [fileSizeBytes_replicate]

/-- C2 witness: the end-to-end instance with 2 files of 1 MiB, giving two
files of 1048 lines and 1048000 bytes. -/
theorem hdfs_generate_word_files_spec_witness :
    ∃ fs', hdfs_generate_word_files false 2 1 ⟨"/", none, []⟩ = Outcome.ok fs' ∧
      ∃ files, fs'.inputDir = some files ∧
        files.length = 2 ∧
        files.map Prod.fst = (List.range 2).map (fun i => "input_file_" ++ toString i) ∧
        ∀ e ∈ files, e.2.length = 1048 ∧
          (∀ l ∈ e.2, l = List.replicate 999 'w') ∧
          fileSizeBytes e.2 = 1048000 :=
  hdfs_generate_word_files_spec 2 1 ⟨"/", none, []⟩

/-- C3: fixed word-file generation produces the single file input_file with
exactly n lines, each of length c (excluding the newline) and consisting of
c copies of the filler character r. -/
theorem hdfs_generate_word_file_spec (c n : Nat) (fs : FS) :
    ∃ fs', hdfs_generate_word_file false c n fs = Outcome.ok fs' ∧
      ∃ content, fs'.inputDir = some [("input_file", content)] ∧
        content.length = n ∧
        ∀ l ∈ content, l.length = c ∧ l = List.replicate c 'r' := by
  refine ⟨_, hdfs_generate_word_file_eq c n fs, _, rfl, by simp, ?_⟩
  intro l hl
  have h := List.eq_of_mem_replicate hl
  exact ⟨by simp [h], h⟩

/-- C3 witness: the instance c = 2, n = 2 from the source's docstring. -/
theorem hdfs_generate_word_file_spec_witness :
    ∃ fs', hdfs_generate_word_file false 2 2 ⟨"/", none, []⟩ = Outcome.ok fs' ∧
      ∃ content, fs'.inputDir = some [("input_file", content)] ∧
        content.length = 2 ∧
        ∀ l ∈ content, l.length = 2 ∧ l = List.replicate 2 'r' :=
  hdfs_generate_word_file_spec 2 2 ⟨"/", none, []⟩

/-- C6: after a successful staging-directory recreation the directory exists
and is empty, and recreating again from that state returns the same
empty-directory end state (idempotence). -/
theorem make_input_directory_spec (fs : FS) :
    ∃ fs', make_input_directory false fs = Outcome.ok fs' ∧
      fs'.inputDir = some [] ∧ make_input_directory false fs' = Outcome.ok fs' := by
  refine ⟨⟨fs.cwd, some [], fs.hdfsUploads⟩, make_input_directory_ok fs, rfl, ?_⟩
  exact make_input_directory_ok _

/-- C6 witness: recreation from a state with a stale staged file. -/
theorem make_input_directory_spec_witness :
    ∃ fs', make_input_directory false ⟨"/", some [("stale", [])], []⟩ = Outcome.ok fs' ∧
      fs'.inputDir = some [] ∧ make_input_directory false fs' = Outcome.ok fs' :=
  make_input_directory_spec ⟨"/", some [("stale", [])], []⟩

/-- C7: a local I/O failure while recreating the staging directory prints
the two console messages and terminates the process; both generation modes
then terminate without writing or uploading anything. -/
theorem make_input_directory_failure_spec (c n f s : Nat) (fs : FS) :
    make_input_directory true fs = Outcome.exited ioFailMsgs ∧
    hdfs_generate_word_file true c n fs = Outcome.exited ioFailMsgs ∧
    hdfs_generate_word_files true f s fs = Outcome.exited ioFailMsgs ∧
    ioFailMsgs = ["Unable to create directory at /home/hadoop/input", "Script failed.."] :=
  ⟨rfl, rfl, rfl, rfl⟩

/-- C7 witness: the failure outcome at a concrete state and parameters. -/
theorem make_input_directory_failure_spec_witness :
    make_input_directory true ⟨"/", none, []⟩ = Outcome.exited ioFailMsgs ∧
    hdfs_generate_word_file true 3 4 ⟨"/", none, []⟩ = Outcome.exited ioFailMsgs ∧
    hdfs_generate_word_files true 5 6 ⟨"/", none, []⟩ = Outcome.exited ioFailMsgs ∧
    ioFailMsgs = ["Unable to create directory at /home/hadoop/input", "Script failed.."] :=
  make_input_directory_failure_spec 3 4 5 6 ⟨"/", none, []⟩

/-- C8: both generation modes leave the process-wide current working
directory set to the staging directory, whatever it was before the call. -/
theorem generation_chdir_spec (c n f s : Nat) (fs : FS) :
    (∃ fs', hdfs_generate_word_file false c n fs = Outcome.ok fs' ∧
        fs'.cwd = INPUT_DIRECTORY) ∧
    (∃ fs', hdfs_generate_word_files false f s fs = Outcome.ok fs' ∧
        fs'.cwd = INPUT_DIRECTORY) :=
  ⟨⟨_, hdfs_generate_word_file_eq c n fs, rfl⟩,
   ⟨_, hdfs_generate_word_files_eq f s fs, rfl⟩⟩

/-- C8 witness: starting from the working directory /root. -/
theorem generation_chdir_spec_witness :
    (∃ fs', hdfs_generate_word_file false 1 1 ⟨"/root", none, []⟩ = Outcome.ok fs' ∧
        fs'.cwd = INPUT_DIRECTORY) ∧
    (∃ fs', hdfs_generate_word_files false 1 1 ⟨"/root", none, []⟩ = Outcome.ok fs' ∧
        fs'.cwd = INPUT_DIRECTORY) :=
  generation_chdir_spec 1 1 1 1 ⟨"/root", none, []⟩

/-- C9: the unit-conversion helpers form an exact round trip, because the
source divides with true (non-truncating) division. -/
theorem unit_conversion_round_trip (x : ℚ) : bytes_to_MiB (MiB_to_bytes x) = x := by
  unfold bytes_to_MiB MiB_to_bytes
  rw [mul_assoc]
  exact mul_div_cancel_right₀ x (by norm_num)

/-- C9 witness: the round trip at 7 MiB. -/
theorem unit_conversion_round_trip_witness : bytes_to_MiB (MiB_to_bytes 7) = 7 :=
  unit_conversion_round_trip 7

/-- C10: zero-sized inputs succeed: word count 0 yields an existing empty
input_file, size 0 MiB yields f existing empty files, and in both cases the
upload step still runs (one more recorded dfs -put). -/
theorem generation_zero_spec (c f : Nat) (fs : FS) :
    (∃ fs', hdfs_generate_word_file false c 0 fs = Outcome.ok fs' ∧
        fs'.inputDir = some [("input_file", [])] ∧
        fileSizeBytes [] = 0 ∧
        fs'.hdfsUploads.length = fs.hdfsUploads.length + 1) ∧
    (∃ fs', hdfs_generate_word_files false f 0 fs = Outcome.ok fs' ∧
        ∃ files, fs'.inputDir = some files ∧ files.length = f ∧
          (∀ e ∈ files, e.2 = []) ∧
          fs'.hdfsUploads.length = fs.hdfsUploads.length + 1) := by
  constructor
  · exact ⟨_, hdfs_generate_word_file_eq c 0 fs, rfl, rfl, by simp⟩
  · refine ⟨_, hdfs_generate_word_files_eq f 0 fs, _, rfl, by simp, ?_, by simp⟩
    intro e he
    simp only [List.mem_map, List.mem_range] at he
    obtain ⟨i, hi, rfl⟩ := he
    rfl

/-- C10 witness: zero-sized generation at concrete parameters. -/
theorem generation_zero_spec_witness :
    (∃ fs', hdfs_generate_word_file false 9 0 ⟨"/", none, []⟩ = Outcome.ok fs' ∧
        fs'.inputDir = some [("input_file", [])] ∧
        fileSizeBytes [] = 0 ∧
        fs'.hdfsUploads.length = 1) ∧
    (∃ fs', hdfs_generate_word_files false 3 0 ⟨"/", none, []⟩ = Outcome.ok fs' ∧
        ∃ files, fs'.inputDir = some files ∧ files.length = 3 ∧
          (∀ e ∈ files, e.2 = []) ∧
          fs'.hdfsUploads.length = 1) :=
  generation_zero_spec 9 3 ⟨"/", none, []⟩

/-! ### Claim theorems about the lifecycle sequences and the privilege model -/

/-- C1 counterexample: in the tear-down sequence the YARN stop step does not
precede the HDFS stop step — the source stops HDFS first. -/
theorem tear_down_order_counterexample :
    ¬ precedesIn hadoop_tear_down_cmds
        (execute_command (HADOOP_HOME ++ "/sbin/stop-yarn.sh"))
        (execute_command (HADOOP_HOME ++ "/sbin/stop-dfs.sh")) := by
  decide

/-- C1 amended: in tear-down the HDFS stop step precedes the YARN stop step,
and in start-up neither daemon-start step precedes the namenode format. -/
theorem lifecycle_order_spec :
    precedesIn hadoop_tear_down_cmds
        (execute_command (HADOOP_HOME ++ "/sbin/stop-dfs.sh"))
        (execute_command (HADOOP_HOME ++ "/sbin/stop-yarn.sh")) ∧
    ¬ precedesIn hadoop_start_up_cmds
        (execute_command (HADOOP_HOME ++ "/sbin/start-dfs.sh"))
        (execute_command (HDFS ++ " namenode -format -y")) ∧
    ¬ precedesIn hadoop_start_up_cmds
        (execute_command (HADOOP_HOME ++ "/sbin/start-yarn.sh"))
        (execute_command (HDFS ++ " namenode -format -y")) := by
  decide

/-- C5 counterexample: not every process spawned by tear-down goes through
the su privilege wrapper — the temporary-file cleanup is a bare rm. -/
theorem execute_as_hadoop_counterexample :
    ¬ (∀ p ∈ hadoop_tear_down_cmds, isSu p = true) := by
  decide

/-- C5 amended: every process spawned by the driver runs through su hadoop,
except the temporary-directory cleanup in tear-down, which runs directly as
the invoking user. -/
theorem execute_as_hadoop_amended_spec
    (properties : List String) (application_id : String) :
    (hadoop_start_up_cmds ++ hdfs_generate_cmds
      ++ hadoop_print_configuration_property_values_cmds properties
      ++ yarn_get_application_id_cmds
      ++ yarn_write_logs_to_file_cmds application_id).all isSu = true ∧
    hadoop_tear_down_cmds.all (fun p => isSu p
      || decide (p = Proc.direct ["rm", "-rf", "/tmp/hadoop-hadoop", "/tmp/hadoop-yarn-hadoop"]))
      = true := by
  constructor
  · simp [hadoop_start_up_cmds, hdfs_generate_cmds,
      hadoop_print_configuration_property_values_cmds, yarn_get_application_id_cmds,
      yarn_write_logs_to_file_cmds, isSu, execute_command, List.all_eq_true]
  · decide

/-- C5 amended witness: the privilege pattern at concrete arguments. -/
theorem execute_as_hadoop_amended_spec_witness :
    (hadoop_start_up_cmds ++ hdfs_generate_cmds
      ++ hadoop_print_configuration_property_values_cmds ["dfs.blocksize"]
      ++ yarn_get_application_id_cmds
      ++ yarn_write_logs_to_file_cmds "application_1_2").all isSu = true ∧
    hadoop_tear_down_cmds.all (fun p => isSu p
      || decide (p = Proc.direct ["rm", "-rf", "/tmp/hadoop-hadoop", "/tmp/hadoop-yarn-hadoop"]))
      = true :=
  execute_as_hadoop_amended_spec ["dfs.blocksize"] "application_1_2"

/-- C4: when the captured output contains a substring matching
application_[0-9]+_[0-9]+, application-id extraction returns a match
located at the leftmost matching position (the greedy, hence longest, match
there — silently the first when several positions match); when the output
contains no match, extraction fails, modelled by the none result of the
failed search on which .group() raises. -/
theorem yarn_get_application_id_spec (text : List Char) :
    ((∃ i m, appIdMatch m ∧ occursAt text m i) →
      ∃ i m, yarn_get_application_id text = some m ∧ appIdMatch m ∧ occursAt text m i ∧
        (∀ j m', appIdMatch m' → occursAt text m' j → i ≤ j) ∧
        (∀ m', appIdMatch m' → occursAt text m' i → m'.length ≤ m.length)) ∧
    ((∀ i m, appIdMatch m → ¬ occursAt text m i) → yarn_get_application_id text = none) := by
  constructor
  · rintro ⟨i0, m0, hm0, ho0⟩
    obtain ⟨v0, hv0⟩ := occursAt_drop ho0
    obtain ⟨mm, hmm⟩ := tryMatchAt_of_match hm0 hv0
    cases hre : re_search text with
    | none =>
      rw [re_search_none hre i0] at hmm
      exact Option.noConfusion hmm
    | some m =>
      obtain ⟨i, hi, hmin⟩ := re_search_some hre
      obtain ⟨hmatch, ⟨v, hv⟩, hmax⟩ := tryMatchAt_some hi
      have hocc : occursAt text m i :=
        occursAt_of_drop (appIdMatch_ne_nil hmatch) ⟨v, hv⟩
      refine ⟨i, m, hre, hmatch, hocc, ?_, ?_⟩
      · intro j m' hm' ho'
        by_contra hji
        push_neg at hji
        obtain ⟨v', hv'⟩ := occursAt_drop ho'
        obtain ⟨m1, hm1⟩ := tryMatchAt_of_match hm' hv'
        rw [hmin j hji] at hm1
        exact Option.noConfusion hm1
      · intro m' hm' ho'
        obtain ⟨v', hv'⟩ := occursAt_drop ho'
        exact hmax m' hm' ⟨v', hv'⟩
  · intro hno
    cases hre : re_search text with
    | none => exact hre
    | some m =>
      obtain ⟨i, hi, hmin⟩ := re_search_some hre
      obtain ⟨hmatch, ⟨v, hv⟩, hmax⟩ := tryMatchAt_some hi
      exact absurd (occursAt_of_drop (appIdMatch_ne_nil hmatch) ⟨v, hv⟩)
        (hno i m hmatch)

/-- C4 witness: extraction succeeds on output that contains the identifier
application_12_34. -/
theorem yarn_get_application_id_spec_witness :
    ∃ m, yarn_get_application_id (String.toList "application_12_34") = some m := by
  obtain ⟨i, m, hsome, -, -, -, -⟩ :=
    (yarn_get_application_id_spec (String.toList "application_12_34")).1
      ⟨0, String.toList "application_12_34",
        ⟨['1', '2'], ['3', '4'], by decide, by decide, by decide, by decide, by decide⟩,
        ⟨[], [], rfl, by simp⟩⟩
  exact ⟨m, hsome⟩

end Hadoop
